import Mathlib

/-
Verification development for the cascading multi-source retrieval core and the
gateway configuration of this repository.

The cascade engine (`cascadeGetters`) and the cascade getter (`NewCascadeGetter`)
are exercised by the tests in `src/nodebuilder/settings.go` but their own code is
not part of the visible sources, so they are modelled from the specification
(sections 4.2, 4.3, 5 and 7 of `spec.md`).  The gateway `Config` and its
`Validate` method are translated from `src/unnamed/part_000`.
-/

/-- Error values are modelled by their message content (a Go `error` is observed
here only through `Error() string`); a message is its list of characters. -/
abbrev ErrMsg : Type := List Char

/-- Execution-context cancellation state over time: `ctxErr k` is the value that
`ctx.Err()` would report at the engine's `k`-th backend attempt (`none` while the
context is live, `some cause` once it is canceled or its deadline elapsed). -/
abbrev CtxTrace : Type := Nat → Option ErrMsg

/-- Modelled from the spec (section 4.2 step 3): the aggregated failure joins the
accumulated causes "one per line", so each contributing error stays individually
inspectable and N causes produce N−1 separators. -/
def joinErrs : List ErrMsg → ErrMsg
  | [] => []
  | [e] => e
  | e :: es => e ++ '\n' :: joinErrs es

/-- Modelled from the spec (sections 4.2 and 7): the explicit no-backend failure
surfaced when the backend list is empty. -/
def noBackendsMsg : ErrMsg := "no backends available".toList

/-- Modelled from the spec (section 4.2 step 3): on exhaustion the accumulated
errors are aggregated; a zero-cause aggregation degenerates to the explicit
"no backends available" failure, never a false success. -/
def aggregateErrs (acc : List ErrMsg) : ErrMsg :=
  if acc = [] then noBackendsMsg else joinErrs acc

/-- Modelled from the spec (section 4.2, the engine's loop): iterate the backends
in order with an error accumulator.  Invoking backend `g` is `get (ctxErr 0) g`,
the operation applied to the context state observed at this attempt.  A nil
error returns the result immediately; on a non-nil error the *outer context's
own cancellation state* (never the error value) is inspected: if canceled the
cancellation cause alone is returned, otherwise the error is appended and the
cascade continues.  Exhaustion returns the aggregation of the accumulator.  The
second component instruments the run with the list of attempted backend
positions (indices into the supplied list), used for the temporal claims. -/
def cascadeLoop {G V : Type} (ctxErr : CtxTrace)
    (get : Option ErrMsg → G → Option V × Option ErrMsg) :
    List G → List ErrMsg → (Option V × Option ErrMsg) × List Nat
  | [], acc => ((none, some (aggregateErrs acc)), [])
  | g :: rest, acc =>
    match get (ctxErr 0) g with
    | (r1, none) => ((r1, none), [0])
    | (_r1, some e) =>
      match ctxErr 0 with
      | some cause => ((none, some cause), [0])
      | none =>
        ((cascadeLoop (fun k => ctxErr (k + 1)) get rest (acc ++ [e])).1,
          0 :: (cascadeLoop (fun k => ctxErr (k + 1)) get rest (acc ++ [e])).2.map (· + 1))

/-- Modelled from the spec (section 4.2): `cascade(context, backends, operation)`,
the generic ordered-fallback algorithm.  Returns the Go-style
`(result, error)` pair: exactly one of the two is meaningful, success being
classified solely by the error component being `none`. -/
def cascadeGetters {G V : Type} (ctxErr : CtxTrace) (getters : List G)
    (get : Option ErrMsg → G → Option V × Option ErrMsg) :
    Option V × Option ErrMsg :=
  (cascadeLoop ctxErr get getters []).1

/-- The instrumented attempt trace of the same run as `cascadeGetters`: the
positions of the backends actually invoked, in invocation order. -/
def cascadeAttempts {G V : Type} (ctxErr : CtxTrace) (getters : List G)
    (get : Option ErrMsg → G → Option V × Option ErrMsg) : List Nat :=
  (cascadeLoop (V := V) ctxErr get getters []).2

/-- Two independent cascade calls run in sequence; used to state that no state is
carried over from one call to the next. -/
def runTwice {G₁ V₁ G₂ V₂ : Type} (c₁ : CtxTrace) (gs₁ : List G₁)
    (get₁ : Option ErrMsg → G₁ → Option V₁ × Option ErrMsg)
    (c₂ : CtxTrace) (gs₂ : List G₂)
    (get₂ : Option ErrMsg → G₂ → Option V₂ × Option ErrMsg) :
    (Option V₁ × Option ErrMsg) × (Option V₂ × Option ErrMsg) :=
  (cascadeGetters c₁ gs₁ get₁, cascadeGetters c₂ gs₂ get₂)

/-- Modelled from the spec (section 4.1): the Retrieval Capability contract, the
two operations every backend exposes.  A backend receives the context state
observed at its invocation. -/
structure Getter (Root Share EDS : Type) where
  GetShare : Option ErrMsg → Root → Nat → Nat → Option Share × Option ErrMsg
  GetEDS : Option ErrMsg → Root → Option EDS × Option ErrMsg

/-- Modelled from the spec (section 4.3): the Cascade Getter owns an immutable
ordered list of child Retrieval Capability instances. -/
structure CascadeGetter (Root Share EDS : Type) where
  getters : List (Getter Root Share EDS)

/-- Modelled from the spec (section 4.3) and the test `TestCascadeGetter`:
constructs a Cascade Getter over the supplied ordered backend list. -/
def NewCascadeGetter {Root Share EDS : Type} (gs : List (Getter Root Share EDS)) :
    CascadeGetter Root Share EDS :=
  ⟨gs⟩

/-- Modelled from the spec (section 4.3): the share fetch is a one-line
delegation into the Cascade Engine, instantiated with the share operation. -/
def CascadeGetter.GetShare {Root Share EDS : Type} (cg : CascadeGetter Root Share EDS)
    (ctxErr : CtxTrace) (root : Root) (row col : Nat) :
    Option Share × Option ErrMsg :=
  cascadeGetters ctxErr cg.getters (fun c g => g.GetShare c root row col)

/-- Modelled from the spec (section 4.3): the square fetch is a one-line
delegation into the Cascade Engine, instantiated with the square operation. -/
def CascadeGetter.GetEDS {Root Share EDS : Type} (cg : CascadeGetter Root Share EDS)
    (ctxErr : CtxTrace) (root : Root) :
    Option EDS × Option ErrMsg :=
  cascadeGetters ctxErr cg.getters (fun c g => g.GetEDS c root)

/-- Modelled from the spec (section 4.3): a Cascade Getter is itself a Retrieval
Capability instance, so it can be placed inside another Cascade Getter's backend
list; as a backend it sees the context state of its single invocation. -/
def CascadeGetter.asGetter {Root Share EDS : Type} (cg : CascadeGetter Root Share EDS) :
    Getter Root Share EDS where
  GetShare := fun c root row col => cg.GetShare (fun _ => c) root row col
  GetEDS := fun c root => cg.GetEDS (fun _ => c) root

/- ## Gateway configuration (translated from `src/unnamed/part_000`) -/

/-- Decimal digit run accumulator for `strconv.Atoi`: consumes the remaining
characters, failing on any non-digit. -/
def atoiDigits : List Char → Nat → Option Nat
  | [], n => some n
  | c :: rest, n =>
    if '0' ≤ c ∧ c ≤ '9' then atoiDigits rest (n * 10 + (c.toNat - '0'.toNat))
    else none

/-- Go `strconv.Atoi` (equivalently `ParseInt(s, 10, 0)` on a 64-bit platform):
an optional single sign, then at least one decimal digit and nothing else, with
the value required to fit in a signed 64-bit integer. -/
def Atoi (s : String) : Option Int :=
  match s.toList with
  | [] => none
  | c :: rest =>
    let neg : Bool := c = '-'
    let digits : List Char := if c = '-' ∨ c = '+' then rest else c :: rest
    if digits = [] then none
    else
      match atoiDigits digits 0 with
      | none => none
      | some n =>
        if neg then (if n ≤ 2 ^ 63 then some (-(n : Int)) else none)
        else (if n ≤ 2 ^ 63 - 1 then some (n : Int) else none)

/-- Go `net/netip.parseIPv4Fields`: dotted-decimal parsing with exactly four
fields, one to three digits each, values at most 255, and no leading zeros.
State: remaining input, current field value, fields completed, digits seen in
the current field, completed field values. -/
def parseIPv4Loop : List Char → Nat → Nat → Nat → List Nat → Option (List Nat)
  | [], val, pos, _digLen, fields =>
    if pos < 3 then none
    else some (fields ++ [val])
  | c :: rest, val, pos, digLen, fields =>
    if '0' ≤ c ∧ c ≤ '9' then
      if digLen = 1 ∧ val = 0 then none
      else
        if val * 10 + (c.toNat - '0'.toNat) > 255 then none
        else parseIPv4Loop rest (val * 10 + (c.toNat - '0'.toNat)) pos (digLen + 1) fields
    else if c = '.' then
      if digLen = 0 then none
      else if rest = [] then none
      else if pos = 3 then none
      else parseIPv4Loop rest 0 (pos + 1) 0 (fields ++ [val])
    else none

/-- Go `net/netip.parseIPv4`: parse a dotted-decimal IPv4 address into its four
octets. -/
def parseIPv4 (s : List Char) : Option (List Nat) :=
  parseIPv4Loop s 0 0 0 []

/-- Value of one hexadecimal digit, or `none` for a non-hex character. -/
def hexDigitVal (c : Char) : Option Nat :=
  if '0' ≤ c ∧ c ≤ '9' then some (c.toNat - '0'.toNat)
  else if 'a' ≤ c ∧ c ≤ 'f' then some (c.toNat - 'a'.toNat + 10)
  else if 'A' ≤ c ∧ c ≤ 'F' then some (c.toNat - 'A'.toNat + 10)
  else none

/-- The hex-group scan inside Go `net/netip.parseIPv6`: consumes leading hex
digits into an accumulator, failing once a fifth digit of one group appears;
returns the group value, the number of digits consumed, and the rest. -/
def takeHexGroup : List Char → Nat → Nat → Option (Nat × Nat × List Char)
  | [], acc, off => some (acc, off, [])
  | c :: rest, acc, off =>
    match hexDigitVal c with
    | none => some (acc, off, c :: rest)
    | some d =>
      if off > 3 then none
      else takeHexGroup rest (acc * 16 + d) (off + 1)

/-- The main loop of Go `net/netip.parseIPv6`, one step per 16-bit group.  The
fuel counts the remaining loop iterations (the Go loop runs while fewer than 16
bytes are filled, filling at least two bytes per iteration, hence 8 suffices).
State: bytes filled so far and the ellipsis position, if one was seen.  Returns
the filled bytes, the ellipsis position and the unconsumed input at loop exit. -/
def parseIPv6Loop : Nat → List Char → List Nat → Option Nat →
    Option (List Nat × Option Nat × List Char)
  | 0, s, ip, ell => some (ip, ell, s)
  | fuel + 1, s, ip, ell =>
    match takeHexGroup s 0 0 with
    | none => none
    | some (acc, off, rest) =>
      if off = 0 then none
      else
        match rest with
        | '.' :: _ =>
          if ell = none ∧ ip.length ≠ 12 then none
          else if ip.length + 4 > 16 then none
          else
            match parseIPv4 s with
            | none => none
            | some fields4 => some (ip ++ fields4, ell, [])
        | [] => some (ip ++ [acc / 256, acc % 256], ell, [])
        | ':' :: rest2 =>
          match rest2 with
          | [] => none
          | ':' :: rest3 =>
            if ell.isSome then none
            else
              match rest3 with
              | [] => some (ip ++ [acc / 256, acc % 256], some (ip.length + 2), [])
              | _ => parseIPv6Loop fuel rest3 (ip ++ [acc / 256, acc % 256]) (some (ip.length + 2))
          | _ => parseIPv6Loop fuel rest2 (ip ++ [acc / 256, acc % 256]) ell
        | _ => none

/-- The post-loop checks of Go `net/netip.parseIPv6`: leftover input is an
error; fewer than 16 bytes require an ellipsis, expanded in place to the
missing zeros; a full 16 bytes with an ellipsis is an error. -/
def parseIPv6Finish (ip : List Nat) (ell : Option Nat) (sRem : List Char)
    (zone : List Char) : Option (List Nat × List Char) :=
  if sRem ≠ [] then none
  else if ip.length < 16 then
    match ell with
    | none => none
    | some j => some (ip.take j ++ List.replicate (16 - ip.length) 0 ++ ip.drop j, zone)
  else if ell.isSome then none
  else some (ip, zone)

/-- Go `net/netip.parseIPv6`: split off a `%zone` suffix (which must be
non-empty), handle a leading `::`, run the group loop, require the input to be
fully consumed, and expand the ellipsis to the missing zero bytes (it must
stand for at least one zero group).  Returns the 16 address bytes and the
zone. -/
def parseIPv6 (s0 : List Char) : Option (List Nat × List Char) :=
  let cut := s0.takeWhile (fun c => c ≠ '%')
  let zone := (s0.dropWhile (fun c => c ≠ '%')).drop 1
  if (s0.dropWhile (fun c => c ≠ '%')) ≠ [] ∧ zone = [] then none
  else
    match cut with
    | ':' :: ':' :: s1 =>
      if s1 = [] then some (List.replicate 16 0, zone)
      else
        match parseIPv6Loop 8 s1 [] (some 0) with
        | none => none
        | some (ip, ell, sRem) => parseIPv6Finish ip ell sRem zone
    | s1 =>
      match parseIPv6Loop 8 s1 [] none with
      | none => none
      | some (ip, ell, sRem) => parseIPv6Finish ip ell sRem zone

/-- Go `net/netip.ParseAddr`'s dispatch scan: the first of `.`, `:`, `%` found
in the input decides between IPv4 parsing, IPv6 parsing, and the
missing-address error; no such character means the input is not an IP at all.
An IPv4 result is widened to its 16-byte IPv4-mapped form, as `net.ParseIP`
returns. -/
def parseAddrScan (orig : List Char) : List Char → Option (List Nat × List Char)
  | [] => none
  | c :: rest =>
    if c = '.' then (parseIPv4 orig).map (fun f => ([0, 0, 0, 0, 0, 0, 0, 0, 0, 0, 255, 255] ++ f, []))
    else if c = ':' then parseIPv6 orig
    else if c = '%' then none
    else parseAddrScan orig rest

/-- Go `net.ParseIP`: parse via `netip.ParseAddr` and reject any address
carrying a zone; `some` holds the 16 address bytes. -/
def ParseIP (s : String) : Option (List Nat) :=
  match parseAddrScan s.toList s.toList with
  | some (b, []) => some b
  | _ => none

/-- Translated from `src/unnamed/part_000`: the gateway configuration. -/
structure Config where
  Address : String
  Port : String

/-- Translated from `src/unnamed/part_000`: the default gateway configuration. -/
def DefaultConfig : Config :=
  { Address := "0.0.0.0", Port := "26658" }

/-- Translated from `src/unnamed/part_000`: `Validate` errors when the address
does not parse as an IP, then when the port does not parse via `Atoi`, and
otherwise returns nil (`none`).  The port error's text embeds the underlying
parse error in Go; only its presence matters here. -/
def Config.Validate (cfg : Config) : Option String :=
  match ParseIP cfg.Address with
  | none => some ("service/gateway: invalid listen address format: " ++ cfg.Address)
  | some _ =>
    match Atoi cfg.Port with
    | none => some "service/gateway: invalid port"
    | some _ => none

/- ## Helper lemmas about the cascade loop -/

theorem range_shift (n : Nat) :
    (0 : Nat) :: (List.range n).map (· + 1) = List.range (n + 1) := by
  rw [List.range_succ_eq_map]

theorem cascadeLoop_nil {G V : Type} (ctxErr : CtxTrace)
    (get : Option ErrMsg → G → Option V × Option ErrMsg) (acc : List ErrMsg) :
    cascadeLoop ctxErr get [] acc = ((none, some (aggregateErrs acc)), []) := rfl

theorem cascadeLoop_cons_done {G V : Type} (ctxErr : CtxTrace)
    {get : Option ErrMsg → G → Option V × Option ErrMsg}
    {g : G} {r1 : Option V} (rest : List G) (acc : List ErrMsg)
    (h : get (ctxErr 0) g = (r1, none)) :
    cascadeLoop ctxErr get (g :: rest) acc = ((r1, none), [0]) := by
  simp [cascadeLoop, h]

theorem cascadeLoop_cons_cancel {G V : Type} (ctxErr : CtxTrace)
    {get : Option ErrMsg → G → Option V × Option ErrMsg}
    {g : G} {r1 : Option V} {e cause : ErrMsg} (rest : List G) (acc : List ErrMsg)
    (hc : ctxErr 0 = some cause)
    (h : get (some cause) g = (r1, some e)) :
    cascadeLoop ctxErr get (g :: rest) acc = ((none, some cause), [0]) := by
  simp [cascadeLoop, hc, h]

theorem cascadeLoop_cons_next {G V : Type} (ctxErr : CtxTrace)
    {get : Option ErrMsg → G → Option V × Option ErrMsg}
    {g : G} {r1 : Option V} {e : ErrMsg} (rest : List G) (acc : List ErrMsg)
    (hl : ctxErr 0 = none)
    (h : get none g = (r1, some e)) :
    cascadeLoop ctxErr get (g :: rest) acc =
      ((cascadeLoop (fun k => ctxErr (k + 1)) get rest (acc ++ [e])).1,
        0 :: (cascadeLoop (fun k => ctxErr (k + 1)) get rest (acc ++ [e])).2.map (· + 1)) := by
  simp [cascadeLoop, hl, h]

theorem cascadeLoop_allFail {G V : Type}
    (get : Option ErrMsg → G → Option V × Option ErrMsg)
    {gs : List G} {errs : List ErrMsg}
    (hfa : List.Forall₂ (fun g e => (get none g).2 = some e) gs errs) :
    ∀ acc, cascadeLoop (fun _ => none) get gs acc =
      ((none, some (aggregateErrs (acc ++ errs))), List.range gs.length) := by
  induction hfa with
  | nil => intro acc; simp [cascadeLoop_nil]
  | @cons g e gs' errs' hge _hrest ih =>
    intro acc
    have h1 : get (none : Option ErrMsg) g = ((get none g).1, some e) := by rw [← hge]
    rw [cascadeLoop_cons_next (fun _ => none) gs' acc rfl h1]
    rw [ih (acc ++ [e])]
    simp [range_shift]

theorem cascadeLoop_fails_then_done {G V : Type}
    (get : Option ErrMsg → G → Option V × Option ErrMsg)
    {fails : List G} {errs : List ErrMsg} {g : G} {r : Option V}
    (hfa : List.Forall₂ (fun g e => (get none g).2 = some e) fails errs)
    (hsucc : get none g = (r, none)) :
    ∀ (rest : List G) (acc : List ErrMsg),
      cascadeLoop (fun _ => none) get (fails ++ g :: rest) acc =
        ((r, none), List.range (fails.length + 1)) := by
  induction hfa with
  | nil =>
    intro rest acc
    rw [List.nil_append]
    rw [cascadeLoop_cons_done (fun _ => none) rest acc hsucc]
    rfl
  | @cons f e fails' errs' hge _hrest ih =>
    intro rest acc
    have h1 : get (none : Option ErrMsg) f = ((get none f).1, some e) := by rw [← hge]
    rw [List.cons_append]
    rw [cascadeLoop_cons_next (fun _ => none) (fails' ++ g :: rest) acc rfl h1]
    rw [ih rest (acc ++ [e])]
    simp [range_shift]

theorem cascadeLoop_canceled {G V : Type}
    (get : Option ErrMsg → G → Option V × Option ErrMsg)
    {fails : List G} {errs : List ErrMsg}
    (hfa : List.Forall₂ (fun g e => (get none g).2 = some e) fails errs) :
    ∀ (ctxErr : CtxTrace) (cause : ErrMsg),
      (∀ k, k < fails.length → ctxErr k = none) →
      ctxErr fails.length = some cause →
      ∀ (g : G) (e2 : ErrMsg), (get (some cause) g).2 = some e2 →
      ∀ (rest : List G) (acc : List ErrMsg),
        cascadeLoop ctxErr get (fails ++ g :: rest) acc =
          ((none, some cause), List.range (fails.length + 1)) := by
  induction hfa with
  | nil =>
    intro ctxErr cause _hlive hcanc g e2 hresp rest acc
    have h1 : get (some cause) g = ((get (some cause) g).1, some e2) := by rw [← hresp]
    rw [List.nil_append]
    rw [cascadeLoop_cons_cancel ctxErr rest acc hcanc h1]
    rfl
  | @cons f e fails' errs' hge _hrest ih =>
    intro ctxErr cause hlive hcanc g e2 hresp rest acc
    have hl0 : ctxErr 0 = none := hlive 0 (by simp)
    have h1 : get (none : Option ErrMsg) f = ((get none f).1, some e) := by rw [← hge]
    rw [List.cons_append]
    rw [cascadeLoop_cons_next ctxErr (fails' ++ g :: rest) acc hl0 h1]
    rw [ih (fun k => ctxErr (k + 1)) cause
      (fun k hk => hlive (k + 1) (by simpa using Nat.succ_lt_succ hk))
      hcanc g e2 hresp rest (acc ++ [e])]
    simp [range_shift]

theorem cascadeLoop_attempts_range {G V : Type}
    (get : Option ErrMsg → G → Option V × Option ErrMsg) :
    ∀ (gs : List G) (ctxErr : CtxTrace) (acc : List ErrMsg),
      ∃ n, n ≤ gs.length ∧ (cascadeLoop ctxErr get gs acc).2 = List.range n := by
  intro gs
  induction gs with
  | nil => exact fun ctxErr acc => ⟨0, Nat.le_refl 0, rfl⟩
  | cons g rest ih =>
    intro ctxErr acc
    rcases hg : get (ctxErr 0) g with ⟨r1, e2⟩
    match e2, hg with
    | none, hg =>
      refine ⟨1, Nat.succ_le_succ (Nat.zero_le _), ?_⟩
      rw [cascadeLoop_cons_done ctxErr rest acc hg]
      rfl
    | some e, hg =>
      cases hc : ctxErr 0 with
      | some cause =>
        rw [hc] at hg
        refine ⟨1, Nat.succ_le_succ (Nat.zero_le _), ?_⟩
        rw [cascadeLoop_cons_cancel ctxErr rest acc hc hg]
        rfl
      | none =>
        rw [hc] at hg
        obtain ⟨n, hn, hr⟩ := ih (fun k => ctxErr (k + 1)) (acc ++ [e])
        refine ⟨n + 1, Nat.succ_le_succ hn, ?_⟩
        rw [cascadeLoop_cons_next ctxErr rest acc hc hg]
        simp only [hr]
        exact range_shift n

theorem joinErrs_cons₂ (e e2 : ErrMsg) (es : List ErrMsg) :
    joinErrs (e :: e2 :: es) = e ++ '\n' :: joinErrs (e2 :: es) := rfl

theorem joinErrs_countNL {errs : List ErrMsg} (hne : errs ≠ [])
    (hnl : ∀ e ∈ errs, e.count '\n' = 0) :
    (joinErrs errs).count '\n' = errs.length - 1 := by
  induction errs with
  | nil => exact absurd rfl hne
  | cons e es ih =>
    cases es with
    | nil => simpa [joinErrs] using hnl e (by simp)
    | cons e2 es2 =>
      rw [joinErrs_cons₂, List.count_append, List.count_cons]
      have h0 : e.count '\n' = 0 := hnl e (by simp)
      have h2 : (joinErrs (e2 :: es2)).count '\n' = (e2 :: es2).length - 1 :=
        ih (by simp) (fun x hx => hnl x (by simp [hx]))
      rw [h0, h2]
      simp

/- ## Claim theorems -/

/-- C1: for every list of N backends (N ≥ 1) that all fail with non-cancellation
errors while the caller's context stays live, the cascade returns one aggregated
error containing all N causes in backend order joined one-per-line (so exactly
N−1 separators when each cause is a single line), and never collapses to any
single cause.  Spec-modelled engine. -/
theorem C1_exhaustion_aggregates_all_causes {G V : Type} (ctxErr : CtxTrace)
    (get : Option ErrMsg → G → Option V × Option ErrMsg)
    (getters : List G) (errs : List ErrMsg)
    (hlive : ∀ k, ctxErr k = none)
    (hfa : List.Forall₂ (fun g e => (get none g).2 = some e) getters errs)
    (hne : getters ≠ [])
    (hnl : ∀ e ∈ errs, e.count '\n' = 0) :
    cascadeGetters ctxErr getters get = ((none : Option V), some (joinErrs errs)) ∧
      errs.length = getters.length ∧
      (joinErrs errs).count '\n' = errs.length - 1 ∧
      (2 ≤ errs.length → ∀ e ∈ errs, joinErrs errs ≠ e) := by
  have hctx : ctxErr = fun _ => none := funext hlive
  subst hctx
  have hlen : getters.length = errs.length := hfa.length_eq
  have herrsne : errs ≠ [] := by
    intro h
    subst h
    cases hfa
    exact hne rfl
  have hcount : (joinErrs errs).count '\n' = errs.length - 1 := joinErrs_countNL herrsne hnl
  refine ⟨?_, hlen.symm, hcount, ?_⟩
  · unfold cascadeGetters
    rw [cascadeLoop_allFail get hfa []]
    simp [aggregateErrs, herrsne]
  · intro h2 e he heq
    have h0 := hnl e he
    rw [heq, h0] at hcount
    omega

/-- Witness for C1: three backends failing with causes "a", "b", "c" under a
live context produce the three-cause two-separator aggregate. -/
theorem C1_witness :
    cascadeGetters (fun _ => none) ["a".toList, "b".toList, "c".toList]
        (fun _ g => ((none : Option Nat), some g)) =
      ((none : Option Nat), some (joinErrs ["a".toList, "b".toList, "c".toList])) ∧
      (["a".toList, "b".toList, "c".toList] : List ErrMsg).length =
        (["a".toList, "b".toList, "c".toList] : List ErrMsg).length ∧
      (joinErrs ["a".toList, "b".toList, "c".toList]).count '\n' =
        (["a".toList, "b".toList, "c".toList] : List ErrMsg).length - 1 ∧
      (2 ≤ (["a".toList, "b".toList, "c".toList] : List ErrMsg).length →
        ∀ e ∈ (["a".toList, "b".toList, "c".toList] : List ErrMsg),
          joinErrs ["a".toList, "b".toList, "c".toList] ≠ e) :=
  C1_exhaustion_aggregates_all_causes (fun _ => none)
    (fun _ g => ((none : Option Nat), some g))
    ["a".toList, "b".toList, "c".toList] ["a".toList, "b".toList, "c".toList]
    (fun _ => rfl)
    (List.Forall₂.cons rfl (List.Forall₂.cons rfl (List.Forall₂.cons rfl List.Forall₂.nil)))
    (by simp) (by decide)

/-- C2 counterexample: the claim quantifies over every backend list, but with a
pre-canceled outer context and a single backend that returns a success, the
spec's engine (which consults the context only when a backend reports an error)
returns that success and not the cancellation cause. -/
theorem C2_counterexample :
    cascadeGetters (fun _ => some ("context canceled".toList)) [()]
        (fun _ _ => ((some 42 : Option Nat), none)) = (some 42, none) ∧
      (cascadeGetters (fun _ => some ("context canceled".toList)) [()]
          (fun _ _ => ((some 42 : Option Nat), none))).2 ≠
        some ("context canceled".toList) := by
  exact ⟨rfl, by decide⟩

/-- C2 (amended): for a nonempty backend list whose backends honour the backend
contract (a backend invoked under a canceled context reports an error), if the
outer context is canceled before or during the call — live for the first
`fails.length` attempts, canceled from the next one on — the cascade stops at
the first error it observes after cancellation, discards all accumulated
backend errors, attempts no further backend, and returns exactly the outer
context's cancellation cause as the sole error (hence zero join separators for
a single-line cause).  Spec-modelled engine. -/
theorem C2_caller_cancellation_exact {G V : Type} (ctxErr : CtxTrace)
    (get : Option ErrMsg → G → Option V × Option ErrMsg)
    (fails : List G) (errs : List ErrMsg) (g : G) (rest : List G)
    (cause e2 : ErrMsg)
    (hfa : List.Forall₂ (fun g e => (get none g).2 = some e) fails errs)
    (hlive : ∀ k, k < fails.length → ctxErr k = none)
    (hcanc : ctxErr fails.length = some cause)
    (hresp : (get (some cause) g).2 = some e2) :
    cascadeGetters ctxErr (fails ++ g :: rest) get = ((none : Option V), some cause) ∧
      cascadeAttempts ctxErr (fails ++ g :: rest) get = List.range (fails.length + 1) := by
  have h := cascadeLoop_canceled get hfa ctxErr cause hlive hcanc g e2 hresp rest []
  unfold cascadeGetters cascadeAttempts
  rw [h]
  exact ⟨rfl, rfl⟩

/-- Witness for C2 (amended): the test's "Context Canceled" shape — a
pre-canceled context and three backends that each surface the context's error;
the cascade returns the cancellation cause after a single attempt. -/
theorem C2_witness :
    cascadeGetters (fun _ => some ("context canceled".toList)) [(), (), ()]
        (fun c _ => ((none : Option Nat), c)) =
      ((none : Option Nat), some ("context canceled".toList)) ∧
      cascadeAttempts (fun _ => some ("context canceled".toList)) [(), (), ()]
        (fun c _ => ((none : Option Nat), c)) = List.range 1 :=
  C2_caller_cancellation_exact (fun _ => some ("context canceled".toList))
    (fun c _ => ((none : Option Nat), c)) [] [] () [(), ()]
    ("context canceled".toList) ("context canceled".toList)
    List.Forall₂.nil (fun k hk => absurd hk (Nat.not_lt_zero k)) rfl rfl

/-- C3: a backend error produced while the caller's context is still live — in
particular a deadline-exceeded-shaped one — is an ordinary backend failure: the
cascade continues to the next backend and a later success is returned.  The
classification reads only the outer context's state (`ctxErr`), never the error
value `e`, which is universally quantified here.  Spec-modelled engine. -/
theorem C3_internal_timeout_not_cancellation {G V : Type} (ctxErr : CtxTrace)
    (get : Option ErrMsg → G → Option V × Option ErrMsg)
    (g1 g2 : G) (rest : List G) (e : ErrMsg) (r : Option V)
    (hlive0 : ctxErr 0 = none)
    (hfail : (get none g1).2 = some e)
    (hsucc : get (ctxErr 1) g2 = (r, none)) :
    cascadeGetters ctxErr (g1 :: g2 :: rest) get = (r, none) := by
  have h1 : get (none : Option ErrMsg) g1 = ((get none g1).1, some e) := by rw [← hfail]
  unfold cascadeGetters
  rw [cascadeLoop_cons_next ctxErr (g2 :: rest) [] hlive0 h1]
  rw [cascadeLoop_cons_done (fun k => ctxErr (k + 1)) rest ([] ++ [e]) hsucc]

/-- Witness for C3: the test's "SuccessSecondAfterFirst" shape — a first backend
returning a deadline-exceeded error under a live context, then a succeeding
backend; the success is returned. -/
theorem C3_witness :
    cascadeGetters (fun _ => none) [false, true]
        (fun _ b => if b then ((some 7 : Option Nat), none)
          else (none, some ("context deadline exceeded".toList))) =
      ((some 7 : Option Nat), none) :=
  C3_internal_timeout_not_cancellation (fun _ => none)
    (fun _ b => if b then ((some 7 : Option Nat), none)
      else (none, some ("context deadline exceeded".toList)))
    false true [] ("context deadline exceeded".toList) (some 7) rfl rfl rfl

/-- C4: a cascade call over an empty backend list returns the explicit
no-backend failure, never a success and never a nil error with a nil result.
Spec-modelled engine. -/
theorem C4_empty_backend_list {G V : Type} (ctxErr : CtxTrace)
    (get : Option ErrMsg → G → Option V × Option ErrMsg) :
    cascadeGetters ctxErr ([] : List G) get = ((none : Option V), some noBackendsMsg) ∧
      (cascadeGetters ctxErr ([] : List G) get).2 ≠ none :=
  ⟨rfl, Option.some_ne_none _⟩

/-- C5: if every backend before position i fails with a non-cancellation error
while the context stays live and backend i succeeds, the cascade returns
backend i's result with no error, and the attempt trace stops at i — no later
backend is invoked, whatever the tail is.  Spec-modelled engine. -/
theorem C5_first_success_wins {G V : Type} (ctxErr : CtxTrace)
    (get : Option ErrMsg → G → Option V × Option ErrMsg)
    (fails : List G) (errs : List ErrMsg) (g : G) (rest : List G) (r : Option V)
    (hlive : ∀ k, ctxErr k = none)
    (hfa : List.Forall₂ (fun g e => (get none g).2 = some e) fails errs)
    (hsucc : get none g = (r, none)) :
    cascadeGetters ctxErr (fails ++ g :: rest) get = (r, none) ∧
      cascadeAttempts ctxErr (fails ++ g :: rest) get = List.range (fails.length + 1) := by
  have hctx : ctxErr = fun _ => none := funext hlive
  subst hctx
  have h := cascadeLoop_fails_then_done get hfa hsucc rest []
  unfold cascadeGetters cascadeAttempts
  rw [h]
  exact ⟨rfl, rfl⟩

/-- Witness for C5: the test's "SuccessAfterMultipleTimeouts" shape reduced to
two failing backends, a succeeding one, and an untouched tail backend. -/
theorem C5_witness :
    cascadeGetters (fun _ => none) [0, 1, 2, 3]
        (fun _ n => if n = 2 then ((some 42 : Option Nat), none)
          else (none, some ("fail".toList))) = ((some 42 : Option Nat), none) ∧
      cascadeAttempts (fun _ => none) [0, 1, 2, 3]
        (fun _ n => if n = 2 then ((some 42 : Option Nat), none)
          else (none, some ("fail".toList))) = List.range 3 :=
  C5_first_success_wins (fun _ => none)
    (fun _ n => if n = 2 then ((some 42 : Option Nat), none)
      else (none, some ("fail".toList)))
    [0, 1] ["fail".toList, "fail".toList] 2 [3] (some 42)
    (fun _ => rfl)
    (List.Forall₂.cons rfl (List.Forall₂.cons rfl List.Forall₂.nil)) rfl

/-- C6: a fixed succeeding backend placed at any position of a list whose
earlier backends all fail with non-cancellation errors under a live context
yields the identical result value at every position.  Spec-modelled engine. -/
theorem C6_success_position_independent {G V : Type} (ctxErr : CtxTrace)
    (get : Option ErrMsg → G → Option V × Option ErrMsg)
    (fails₁ fails₂ : List G) (errs₁ errs₂ : List ErrMsg) (g : G)
    (rest₁ rest₂ : List G) (r : Option V)
    (hlive : ∀ k, ctxErr k = none)
    (hfa₁ : List.Forall₂ (fun g e => (get none g).2 = some e) fails₁ errs₁)
    (hfa₂ : List.Forall₂ (fun g e => (get none g).2 = some e) fails₂ errs₂)
    (hg : ∀ c, get c g = (r, none)) :
    cascadeGetters ctxErr (fails₁ ++ g :: rest₁) get = (r, none) ∧
      cascadeGetters ctxErr (fails₂ ++ g :: rest₂) get = (r, none) ∧
      cascadeGetters ctxErr (fails₁ ++ g :: rest₁) get =
        cascadeGetters ctxErr (fails₂ ++ g :: rest₂) get := by
  have hctx : ctxErr = fun _ => none := funext hlive
  subst hctx
  have h₁ := cascadeLoop_fails_then_done get hfa₁ (hg none) rest₁ []
  have h₂ := cascadeLoop_fails_then_done get hfa₂ (hg none) rest₂ []
  unfold cascadeGetters
  rw [h₁, h₂]
  exact ⟨rfl, rfl, rfl⟩

/-- Witness for C6: the same succeeding backend first (position 1 of 3) and
last (position 3 of 3) returns the identical value 42. -/
theorem C6_witness :
    cascadeGetters (fun _ => none) [2, 0, 1]
        (fun _ n => if n = 2 then ((some 42 : Option Nat), none)
          else (none, some ("fail".toList))) = ((some 42 : Option Nat), none) ∧
      cascadeGetters (fun _ => none) [0, 1, 2]
        (fun _ n => if n = 2 then ((some 42 : Option Nat), none)
          else (none, some ("fail".toList))) = ((some 42 : Option Nat), none) ∧
      cascadeGetters (fun _ => none) [2, 0, 1]
          (fun _ n => if n = 2 then ((some 42 : Option Nat), none)
            else (none, some ("fail".toList))) =
        cascadeGetters (fun _ => none) [0, 1, 2]
          (fun _ n => if n = 2 then ((some 42 : Option Nat), none)
            else (none, some ("fail".toList))) :=
  C6_success_position_independent (fun _ => none)
    (fun _ n => if n = 2 then ((some 42 : Option Nat), none)
      else (none, some ("fail".toList)))
    [] [0, 1] [] ["fail".toList, "fail".toList] 2 [0, 1] [] (some 42)
    (fun _ => rfl) List.Forall₂.nil
    (List.Forall₂.cons rfl (List.Forall₂.cons rfl List.Forall₂.nil))
    (fun _ => rfl)

/-- C7: the Cascade Getter's two operations are each exactly an invocation of
the Cascade Engine over its constructed child backend list with the matching
operation, and the adapter that lets a Cascade Getter stand inside another
backend list behaves as that same engine invocation.  Spec-modelled. -/
theorem C7_cascade_getter_delegates {Root Share EDS : Type}
    (cg : CascadeGetter Root Share EDS) (ctxErr : CtxTrace) (root : Root)
    (row col : Nat) (c : Option ErrMsg) (gs : List (Getter Root Share EDS)) :
    cg.GetShare ctxErr root row col =
        cascadeGetters ctxErr cg.getters (fun c g => g.GetShare c root row col) ∧
      cg.GetEDS ctxErr root =
        cascadeGetters ctxErr cg.getters (fun c g => g.GetEDS c root) ∧
      (NewCascadeGetter gs).getters = gs ∧
      (cg.asGetter).GetShare c root row col =
        cascadeGetters (fun _ => c) cg.getters (fun c g => g.GetShare c root row col) ∧
      (cg.asGetter).GetEDS c root =
        cascadeGetters (fun _ => c) cg.getters (fun c g => g.GetEDS c root) :=
  ⟨rfl, rfl, rfl, rfl, rfl⟩

/-- C8: within one call the backends actually invoked form a prefix of the
supplied list in the exact supplied order (the attempt trace is `range n` for
some `n` at most the list length), and a second cascade call's outcome is a
function of its own arguments alone — nothing is carried over from a previous
call.  Spec-modelled engine. -/
theorem C8_sequential_prefix_no_carryover {G V H W : Type} (ctxErr : CtxTrace)
    (getters : List G) (get : Option ErrMsg → G → Option V × Option ErrMsg)
    (c₁ : CtxTrace) (gs₁ : List H)
    (get₁ : Option ErrMsg → H → Option W × Option ErrMsg) :
    (∃ n, n ≤ getters.length ∧ cascadeAttempts ctxErr getters get = List.range n) ∧
      (runTwice c₁ gs₁ get₁ ctxErr getters get).2 = cascadeGetters ctxErr getters get :=
  ⟨cascadeLoop_attempts_range get getters ctxErr [], rfl⟩

/-- C9: success is classified solely by the error being nil — a backend
returning a nil payload together with a nil error after a live-context failing
prefix makes the cascade return that nil payload with no error.
Spec-modelled engine. -/
theorem C9_nil_payload_is_success {G V : Type} (ctxErr : CtxTrace)
    (get : Option ErrMsg → G → Option V × Option ErrMsg)
    (fails : List G) (errs : List ErrMsg) (g : G) (rest : List G)
    (hlive : ∀ k, ctxErr k = none)
    (hfa : List.Forall₂ (fun g e => (get none g).2 = some e) fails errs)
    (hsucc : get none g = ((none : Option V), none)) :
    cascadeGetters ctxErr (fails ++ g :: rest) get = ((none : Option V), none) := by
  have hctx : ctxErr = fun _ => none := funext hlive
  subst hctx
  have h := cascadeLoop_fails_then_done get hfa hsucc rest []
  unfold cascadeGetters
  rw [h]

/-- Witness for C9: the test's "Single" shape — one backend returning
`(nil, nil)`; the cascade returns `(nil, nil)`. -/
theorem C9_witness :
    cascadeGetters (fun _ => none) [()] (fun _ _ => ((none : Option Nat), none)) =
      ((none : Option Nat), none) :=
  C9_nil_payload_is_success (fun _ => none) (fun _ _ => ((none : Option Nat), none))
    [] [] () [] (fun _ => rfl) List.Forall₂.nil rfl

/-- C10: the gateway `Config.Validate` returns nil exactly when the address
parses via `net.ParseIP` and the port parses via `strconv.Atoi`; `Atoi` accepts
the out-of-range port strings "-1" and "99999", and the `DefaultConfig`
("0.0.0.0", "26658") always validates with no error. -/
theorem C10_gateway_validate_semantics :
    (∀ cfg : Config,
        cfg.Validate = none ↔ ((ParseIP cfg.Address).isSome ∧ (Atoi cfg.Port).isSome)) ∧
      (Atoi "-1").isSome ∧ (Atoi "99999").isSome ∧
      DefaultConfig.Address = "0.0.0.0" ∧ DefaultConfig.Port = "26658" ∧
      DefaultConfig.Validate = none := by
  refine ⟨fun cfg => ?_, by decide, by decide, rfl, rfl, by decide⟩
  cases h : ParseIP cfg.Address with
  | none => simp [Config.Validate, h]
  | some b =>
    cases h2 : Atoi cfg.Port with
    | none => simp [Config.Validate, h, h2]
    | some n => simp [Config.Validate, h, h2]
